import Mathlib

/-!
Verification of the multi-model medical prompt generator
(src/prompt_generator.py): a shallow embedding of its pure core --
instruction templating, prompt scoring, tokenizer padding-token
initialization, and the per-model comparison loop with best-model
selection -- together with theorems settling the specification claims.
-/

namespace PromptGen

/-- Characters that Python's argumentless str.split and str.strip treat as
whitespace (the ASCII whitespace characters of str.isspace). -/
def pyIsSpace (c : Char) : Bool :=
  c = ' ' || c = '\t' || c = '\n' || c = '\r' || c = '\x0b' || c = '\x0c'

/-- Worker for pySplit: walks the character list, accumulating the current
word (reversed) and emitting it when whitespace or the end is reached. -/
def pySplitAux : List Char → List Char → List String
  | [], acc => if acc.isEmpty then [] else [String.mk acc.reverse]
  | c :: cs, acc =>
    if pyIsSpace c then
      if acc.isEmpty then pySplitAux cs []
      else String.mk acc.reverse :: pySplitAux cs []
    else pySplitAux cs (c :: acc)

/-- Python's str.split() with no arguments: split on runs of whitespace,
discarding empty pieces.  Used by evaluate_prompt (prompt.split()). -/
def pySplit (s : String) : List String := pySplitAux s.toList []

/-- Python's str.strip(): remove leading and trailing whitespace.  Used on
the decoded generation output (generated_text.strip()). -/
def pyStrip (s : String) : String :=
  String.mk (((s.toList.dropWhile pyIsSpace).reverse.dropWhile pyIsSpace).reverse)

/-- The registry of models (src line 5): a fixed mapping, in insertion
order, from display name to backend path. -/
def models : List (String × String) :=
  [("DistilGPT-2", "distilgpt2"), ("GPT-Neo-125M", "EleutherAI/gpt-neo-125M")]

/-- The registered model names in registration (dict insertion) order,
as iterated by the comparison loop (for model_name in models.keys()). -/
def modelNames : List String := models.map Prod.fst

/-- A tokenizer as far as the padding-token initialization is concerned:
its optional padding token and optional end-of-sequence token. -/
structure Tokenizer where
  pad_token : Option String
  eos_token : Option String
deriving DecidableEq

/-- The body of the initialization loop (src lines 12-14): if the
tokenizer has no pad token, assign its eos token as the pad token. -/
def ensurePadToken (t : Tokenizer) : Tokenizer :=
  if t.pad_token = none then Tokenizer.mk t.eos_token t.eos_token else t

/-- The initialization loop over all registered tokenizers. -/
def initTokenizers (ts : List Tokenizer) : List Tokenizer :=
  ts.map ensurePadToken

/-- The instruction-building steps of generate_prompt_with_model
(src lines 18-23): base sentence, optional condition fragment (appended
when the condition string is truthy, i.e. non-empty), optional details
fragment (same test), then the fixed closing sentence. -/
def base_prompt (description modality condition details : String) : String :=
  let p0 := "Generate a " ++ modality ++ " scan of " ++ description ++
    ". Focus on the medical imaging context only."
  let p1 := if condition = "" then p0
    else p0 ++ " Focus on capturing " ++ condition ++ "."
  let p2 := if details = "" then p1
    else p1 ++ " Include details such as " ++ details ++ "."
  p2 ++ " Avoid any extra information, references, or irrelevant content. Keep the prompt focused only on the image generation task."

/-- evaluate_prompt (src lines 41-48): length score is the number of
whitespace-delimited words, clarity score the number of words longer
than 3 characters, final score their sum. -/
def evaluate_prompt (prompt : String) : Nat × Nat × Nat :=
  let length_score := (pySplit prompt).length
  let clarity_score := ((pySplit prompt).filter (fun word => word.length > 3)).length
  let final_score := length_score + clarity_score
  (length_score, clarity_score, final_score)

/-- An abstract generation backend: given a model name, the instruction
text, and the maximum length, it either returns decoded text or fails
(modelling an exception raised by tokenize, generate or decode). -/
def Backend := String → String → Nat → Except String String

/-- generate_prompt_with_model (src lines 17-39): build the instruction,
hand it to the backend, and strip the decoded output.  A backend failure
propagates (an uncaught exception). -/
def generate_prompt_with_model (gen : Backend) (model_name : String)
    (description modality condition details : String) (max_length : Nat) :
    Except String String :=
  let bp := base_prompt description modality condition details
  match gen model_name bp max_length with
  | Except.error e => Except.error e
  | Except.ok text => Except.ok (pyStrip text)

/-- One iteration's record of the comparison loop: the model name, the
instruction text that was handed to its backend, and the stored output
(results[model_name]). -/
structure ModelRun where
  name : String
  instruction : String
  output : String
deriving DecidableEq

/-- The generation loop of the comparison (src lines 72-78): for each
model name in order, build the instruction (inside
generate_prompt_with_model, hence once per iteration), call the backend,
strip and store the output.  The Nat counts how many times the
instruction template was constructed.  The first backend failure aborts
the whole loop (the exception flies to the except handler). -/
def runModels (gen : Backend) (description modality condition details : String)
    (max_length : Nat) : List String → Except String (List ModelRun × Nat)
  | [] => Except.ok ([], 0)
  | n :: ns =>
    let instr := base_prompt description modality condition details
    match gen n instr max_length with
    | Except.error e => Except.error e
    | Except.ok raw =>
      match runModels gen description modality condition details max_length ns with
      | Except.error e => Except.error e
      | Except.ok (runs, k) => Except.ok (ModelRun.mk n instr (pyStrip raw) :: runs, k + 1)

/-- model_scores (src lines 75-76): each model's final score, keyed by
model name, in loop order. -/
def model_scores (runs : List ModelRun) : List (String × Nat) :=
  runs.map (fun r => (r.name, (evaluate_prompt r.output).2.2))

/-- Python's max over a non-empty sequence with a key: scan left to
right, replacing the current best only on a strictly greater key, so the
first element attaining the maximum wins. -/
def pyMaxAux (cur : String × Nat) : List (String × Nat) → String × Nat
  | [] => cur
  | p :: ps => pyMaxAux (if p.2 > cur.2 then p else cur) ps

/-- max(model_scores, key=model_scores.get) (src line 81): none on an
empty sequence (Python raises ValueError), otherwise the first entry
with the maximum score. -/
def pyMax : List (String × Nat) → Option (String × Nat)
  | [] => none
  | p :: ps => some (pyMaxAux p ps)

/-- The whole try block of the comparison (src lines 66-82): run every
registered model, compute the score map, and select the best model.  On
success it returns the per-model runs, the score map, and
best_model_name; any backend exception surfaces as the request-level
error shown by the except handler. -/
def compare (gen : Backend) (names : List String)
    (description modality condition details : String) (max_length : Nat) :
    Except String (List ModelRun × List (String × Nat) × String) :=
  match runModels gen description modality condition details max_length names with
  | Except.error e => Except.error e
  | Except.ok (runs, _) =>
    match pyMax (model_scores runs) with
    | none => Except.error "max() arg is an empty sequence"
    | some best => Except.ok (runs, model_scores runs, best.1)

/-- The score-bucketing commentary (src lines 111-116), as a function of
the final score; the three strings are the comment texts the shell
prints (the spec labels them needs improvement / fairly descriptive /
well-structured). -/
def scoreComment (final_score : Nat) : String :=
  if final_score < 150 then
    "The generated prompt could be improved by making it more specific and detailed."
  else if 150 ≤ final_score ∧ final_score < 200 then
    "The prompt is fairly descriptive, but it could benefit from additional details."
  else
    "The prompt is well-structured and highly descriptive."

/-- A backend that always succeeds with a fixed short decoded text, used
as a concrete witness backend. -/
def wGen : Backend := fun _ _ _ => Except.ok "alpha beta"
/-- The instruction built for the witness request (description: human
brain, modality MRI, no condition, no details). -/
def wInstr : String := base_prompt "human brain" "MRI" "" ""
/-- The runs produced by the witness backend over two models A and B. -/
def wRuns : List ModelRun :=
  [ModelRun.mk "A" wInstr "alpha beta", ModelRun.mk "B" wInstr "alpha beta"]
/-- The score map of the witness runs: both texts score 2 + 2 = 4. -/
def wScores : List (String × Nat) := [("A", 4), ("B", 4)]
/-- A backend that raises for model A and succeeds for any other model. -/
def failGenA : Backend := fun name _ _ =>
  if name = "A" then Except.error "boom" else Except.ok "fine output"
/-- A backend that raises for model B and succeeds for any other model. -/
def failGenB : Backend := fun name _ _ =>
  if name = "B" then Except.error "boom" else Except.ok "fine output"
/-- The runs produced by the witness backend over the actual registry. -/
def regRuns : List ModelRun :=
  [ModelRun.mk "DistilGPT-2" wInstr "alpha beta",
   ModelRun.mk "GPT-Neo-125M" wInstr "alpha beta"]
/-- The score map of those runs: both outputs tie at final score 4. -/
def regScores : List (String × Nat) := [("DistilGPT-2", 4), ("GPT-Neo-125M", 4)]
/-- Two witness tokenizers: one with no pad token, one with a pad token;
both with an eos token. -/
def wToks : List Tokenizer :=
  [Tokenizer.mk none (some "eos"), Tokenizer.mk (some "pad") (some "eos")]

theorem pyMaxAux_spec (l : List (String × Nat)) : ∀ cur : String × Nat,
    (pyMaxAux cur l = cur ∧ ∀ p ∈ l, p.2 ≤ cur.2) ∨
    (∃ l₁ l₂, l = l₁ ++ (pyMaxAux cur l) :: l₂ ∧ cur.2 < (pyMaxAux cur l).2 ∧
      (∀ p ∈ l₁, p.2 < (pyMaxAux cur l).2) ∧ (∀ p ∈ l, p.2 ≤ (pyMaxAux cur l).2)) := by
  induction l with
  | nil =>
    intro cur; left; exact ⟨rfl, by simp⟩
  | cons p ps ih =>
    intro cur
    have hunfold : pyMaxAux cur (p :: ps) = pyMaxAux (if p.2 > cur.2 then p else cur) ps := rfl
    by_cases hp : p.2 > cur.2
    · rw [hunfold, if_pos hp]
      rcases ih p with ⟨heq, hle⟩ | ⟨l₁, l₂, hsplit, hlt, hbefore, hall⟩
      · right
        refine ⟨[], ps, ?_, ?_, ?_, ?_⟩
        · rw [heq]; rfl
        · rw [heq]; exact hp
        · simp
        · intro q hq
          rw [heq]
          rcases List.mem_cons.mp hq with h | h
          · subst h; exact le_refl _
          · exact hle q h
      · right
        refine ⟨p :: l₁, l₂, ?_, ?_, ?_, ?_⟩
        · rw [List.cons_append, ← hsplit]
        · exact lt_trans hp hlt
        · intro q hq
          rcases List.mem_cons.mp hq with h | h
          · subst h; exact hlt
          · exact hbefore q h
        · intro q hq
          rcases List.mem_cons.mp hq with h | h
          · subst h; exact le_of_lt hlt
          · exact hall q h
    · rw [hunfold, if_neg hp]
      rcases ih cur with ⟨heq, hle⟩ | ⟨l₁, l₂, hsplit, hlt, hbefore, hall⟩
      · left
        refine ⟨heq, ?_⟩
        intro q hq
        rcases List.mem_cons.mp hq with h | h
        · subst h; omega
        · exact hle q h
      · right
        refine ⟨p :: l₁, l₂, ?_, hlt, ?_, ?_⟩
        · rw [List.cons_append, ← hsplit]
        · intro q hq
          rcases List.mem_cons.mp hq with h | h
          · subst h; omega
          · exact hbefore q h
        · intro q hq
          rcases List.mem_cons.mp hq with h | h
          · subst h; omega
          · exact hall q h

theorem pyMax_spec (l : List (String × Nat)) (r : String × Nat) (h : pyMax l = some r) :
    ∃ l₁ l₂, l = l₁ ++ r :: l₂ ∧ (∀ q ∈ l, q.2 ≤ r.2) ∧ ∀ q ∈ l₁, q.2 < r.2 := by
  match l, h with
  | p :: ps, h =>
    have hr : pyMaxAux p ps = r := by
      have : some (pyMaxAux p ps) = some r := h
      exact Option.some.inj this
    rcases pyMaxAux_spec ps p with ⟨heq, hle⟩ | ⟨l₁, l₂, hsplit, hlt, hbefore, hall⟩
    · refine ⟨[], ps, ?_, ?_, by simp⟩
      · rw [← hr, heq]; rfl
      · intro q hq
        rw [← hr, heq]
        rcases List.mem_cons.mp hq with hh | hh
        · subst hh; exact le_refl _
        · exact hle q hh
    · rw [hr] at hsplit hlt hbefore hall
      refine ⟨p :: l₁, l₂, ?_, ?_, ?_⟩
      · rw [List.cons_append, ← hsplit]
      · intro q hq
        rcases List.mem_cons.mp hq with hh | hh
        · subst hh; exact le_of_lt hlt
        · exact hall q hh
      · intro q hq
        rcases List.mem_cons.mp hq with hh | hh
        · subst hh; exact hlt
        · exact hbefore q hh

theorem runModels_ok (gen : Backend) (d m c dt : String) (ml : Nat) :
    ∀ (names : List String) (runs : List ModelRun) (k : Nat),
    runModels gen d m c dt ml names = Except.ok (runs, k) →
    runs.map ModelRun.name = names ∧ k = names.length ∧
    ∀ r ∈ runs, r.instruction = base_prompt d m c dt ∧
      ∃ raw, gen r.name (base_prompt d m c dt) ml = Except.ok raw ∧ r.output = pyStrip raw := by
  intro names
  induction names with
  | nil =>
    intro runs k h
    simp only [runModels] at h
    injection h with h2
    injection h2 with hruns hk
    subst hruns
    subst hk
    simp
  | cons n ns ih =>
    intro runs k h
    simp only [runModels] at h
    cases hg : gen n (base_prompt d m c dt) ml with
    | error e => rw [hg] at h; simp at h
    | ok raw =>
      rw [hg] at h
      cases hrec : runModels gen d m c dt ml ns with
      | error e => rw [hrec] at h; simp at h
      | ok pr =>
        rw [hrec] at h
        obtain ⟨runs2, k2⟩ := pr
        simp only [Except.ok.injEq, Prod.mk.injEq] at h
        obtain ⟨hruns, hk⟩ := h
        obtain ⟨hnames, hlen, hprops⟩ := ih runs2 k2 hrec
        subst hruns
        subst hk
        refine ⟨by simp [hnames], by simp [hlen], ?_⟩
        intro r hr
        rcases List.mem_cons.mp hr with hh | hh
        · subst hh
          exact ⟨rfl, raw, hg, rfl⟩
        · exact hprops r hh

theorem runModels_error (gen : Backend) (d m c dt : String) (ml : Nat) (e : String) :
    ∀ (ns1 : List String) (n : String) (ns2 : List String),
    (∀ x ∈ ns1, ∃ o, gen x (base_prompt d m c dt) ml = Except.ok o) →
    gen n (base_prompt d m c dt) ml = Except.error e →
    runModels gen d m c dt ml (ns1 ++ n :: ns2) = Except.error e := by
  intro ns1
  induction ns1 with
  | nil =>
    intro n ns2 _ herr
    simp only [List.nil_append, runModels]
    rw [herr]
  | cons x xs ih =>
    intro n ns2 hok herr
    obtain ⟨o, ho⟩ := hok x (List.mem_cons_self x xs)
    simp only [List.cons_append, runModels, List.append_eq]
    rw [ho, ih n ns2 (fun y hy => hok y (List.mem_cons_of_mem x hy)) herr]

theorem model_scores_fst (runs : List ModelRun) :
    (model_scores runs).map Prod.fst = runs.map ModelRun.name := by
  simp [model_scores]

theorem compare_ok (gen : Backend) (names : List String) (d m c dt : String) (ml : Nat)
    (runs : List ModelRun) (scores : List (String × Nat)) (best : String)
    (h : compare gen names d m c dt ml = Except.ok (runs, scores, best)) :
    ∃ k, runModels gen d m c dt ml names = Except.ok (runs, k) ∧
      scores = model_scores runs ∧ ∃ bs, pyMax (model_scores runs) = some (best, bs) := by
  unfold compare at h
  split at h
  · simp at h
  next runs2 k hrm =>
    split at h
    · simp at h
    next b hpm =>
      simp only [Except.ok.injEq, Prod.mk.injEq] at h
      obtain ⟨hr, hs, hb⟩ := h
      subst hr
      subst hs
      subst hb
      exact ⟨k, hrm, rfl, b.2, by rw [hpm]⟩

/-- C1: a successful comparison over N registered (distinct) model names
returns exactly N entries keyed by those distinct names in order, the
score map pairs each name with its output's final score, and
best_model_name is one of the keys, carries a final score at least every
other entry's, and on a tie for the maximum the earliest entry wins
(every strictly earlier entry scores strictly less). -/
theorem claim_compare_invariant (gen : Backend) (names : List String)
    (d m c dt : String) (ml : Nat)
    (runs : List ModelRun) (scores : List (String × Nat)) (best : String)
    (hnd : names.Nodup)
    (h : compare gen names d m c dt ml = Except.ok (runs, scores, best)) :
    runs.length = names.length ∧
    runs.map ModelRun.name = names ∧
    (runs.map ModelRun.name).Nodup ∧
    scores = model_scores runs ∧
    best ∈ names ∧
    ∃ bs l₁ l₂, scores = l₁ ++ (best, bs) :: l₂ ∧
      (∀ q ∈ scores, q.2 ≤ bs) ∧ (∀ q ∈ l₁, q.2 < bs) := by
  obtain ⟨k, hrm, hs, bs, hpm⟩ := compare_ok gen names d m c dt ml runs scores best h
  obtain ⟨hnames, hk, hprops⟩ := runModels_ok gen d m c dt ml names runs k hrm
  obtain ⟨l₁, l₂, hsplit, hle, hlt⟩ := pyMax_spec (model_scores runs) (best, bs) hpm
  have hlen : runs.length = names.length := by rw [← hnames, List.length_map]
  have hmem : best ∈ names := by
    have hin : (best, bs) ∈ model_scores runs := by
      rw [hsplit]
      exact List.mem_append_right l₁ (List.mem_cons_self _ _)
    have h2 : best ∈ (model_scores runs).map Prod.fst :=
      List.mem_map_of_mem Prod.fst hin
    rw [model_scores_fst, hnames] at h2
    exact h2
  refine ⟨hlen, hnames, by rw [hnames]; exact hnd, hs, hmem, bs, l₁, l₂, ?_, ?_, hlt⟩
  · rw [hs]; exact hsplit
  · intro q hq; rw [hs] at hq; exact hle q hq

/-- C1 witness: the invariant instantiated at a two-model comparison
where both outputs tie at final score 4, so the earlier model A wins. -/
theorem claim_compare_invariant_witness :
    List.Nodup ["A", "B"] ∧
    compare wGen ["A", "B"] "human brain" "MRI" "" "" 100 =
      Except.ok (wRuns, wScores, "A") ∧
    (wRuns.length = (["A", "B"] : List String).length ∧
     wRuns.map ModelRun.name = ["A", "B"] ∧
     (wRuns.map ModelRun.name).Nodup ∧
     wScores = model_scores wRuns ∧
     "A" ∈ ["A", "B"] ∧
     ∃ bs l₁ l₂, wScores = l₁ ++ ("A", bs) :: l₂ ∧
       (∀ q ∈ wScores, q.2 ≤ bs) ∧ (∀ q ∈ l₁, q.2 < bs)) :=
  ⟨by decide, rfl,
   claim_compare_invariant wGen ["A", "B"] "human brain" "MRI" "" "" 100
     wRuns wScores "A" (by decide) rfl⟩

/-- C2: the four-step template on description human brain, modality MRI,
empty condition and details, yields exactly the specified instruction. -/
theorem claim_templater_example :
    base_prompt "human brain" "MRI" "" "" =
      "Generate a MRI scan of human brain. Focus on the medical imaging context only. Avoid any extra information, references, or irrelevant content. Keep the prompt focused only on the image generation task." :=
  rfl

/-- C3: the scorer is total: for every string the length score is the
whitespace-token count, the clarity score counts tokens longer than 3
characters, the final score is their sum, and the empty string scores
all zeros. -/
theorem claim_scorer_total (text : String) :
    (evaluate_prompt text).1 = (pySplit text).length ∧
    (evaluate_prompt text).2.1 =
      ((pySplit text).filter (fun word => word.length > 3)).length ∧
    (evaluate_prompt text).2.2 = (evaluate_prompt text).1 + (evaluate_prompt text).2.1 ∧
    evaluate_prompt "" = (0, 0, 0) :=
  ⟨rfl, rfl, rfl, rfl⟩

/-- C4 counterexample: a whitespace-only condition is NOT treated as
absent: with condition a single space the condition fragment is
appended, so the output differs from the empty-condition output,
refuting the claim that whitespace-only optional fields are omitted. -/
theorem claim_whitespace_fragment_counterexample :
    base_prompt "human brain" "MRI" " " "" =
      "Generate a MRI scan of human brain. Focus on the medical imaging context only. Focus on capturing  . Avoid any extra information, references, or irrelevant content. Keep the prompt focused only on the image generation task." ∧
    base_prompt "human brain" "MRI" " " "" ≠ base_prompt "human brain" "MRI" "" "" :=
  ⟨rfl, by decide⟩

/-- C4 amended: each optional fragment appears in the output exactly
when its source field is non-empty, with no trimming: the emptiness test
is Python truthiness, so whitespace-only fields count as present. -/
theorem claim_optional_fragments (d m c dt : String) :
    base_prompt d m c dt =
      "Generate a " ++ m ++ " scan of " ++ d ++
      ". Focus on the medical imaging context only." ++
      (if c = "" then "" else " Focus on capturing " ++ c ++ ".") ++
      (if dt = "" then "" else " Include details such as " ++ dt ++ ".") ++
      " Avoid any extra information, references, or irrelevant content. Keep the prompt focused only on the image generation task." := by
  by_cases hc : c = "" <;> by_cases hd : dt = "" <;>
    · apply String.ext
      simp [base_prompt, hc, hd, String.data_append, List.append_assoc]

/-- C5 counterexample: the surfaced failure does not identify which
model failed: whether the first or the second registered model raises,
the comparison surfaces the identical raw backend error, with no model
name attached. -/
theorem claim_error_identity_counterexample :
    compare failGenA ["A", "B"] "human brain" "MRI" "" "" 100 = Except.error "boom" ∧
    compare failGenB ["A", "B"] "human brain" "MRI" "" "" 100 = Except.error "boom" ∧
    compare failGenA ["A", "B"] "human brain" "MRI" "" "" 100 =
      compare failGenB ["A", "B"] "human brain" "MRI" "" "" 100 :=
  ⟨rfl, rfl, rfl⟩

/-- C5 amended: if one model's backend raises during generation (after
any earlier models succeeded), the whole comparison fails with exactly
the backend's own error: a request-level failure with no partial result,
so the failing model is never silently dropped, though the error does
not necessarily identify the failing model. -/
theorem claim_error_propagation (gen : Backend) (d m c dt : String) (ml : Nat)
    (ns1 : List String) (n : String) (ns2 : List String) (e : String)
    (hok : ∀ x ∈ ns1, ∃ o, gen x (base_prompt d m c dt) ml = Except.ok o)
    (herr : gen n (base_prompt d m c dt) ml = Except.error e) :
    compare gen (ns1 ++ n :: ns2) d m c dt ml = Except.error e := by
  unfold compare
  rw [runModels_error gen d m c dt ml e ns1 n ns2 hok herr]

/-- C5 amended witness: model A succeeds, model B raises, and the
comparison surfaces the backend error as its overall result. -/
theorem claim_error_propagation_witness :
    (∀ x ∈ ["A"], ∃ o, failGenB x (base_prompt "human brain" "MRI" "" "") 100 = Except.ok o) ∧
    failGenB "B" (base_prompt "human brain" "MRI" "" "") 100 = Except.error "boom" ∧
    compare failGenB (["A"] ++ "B" :: []) "human brain" "MRI" "" "" 100 =
      Except.error "boom" :=
  ⟨fun x hx => by
      rw [List.mem_singleton] at hx
      subst hx
      exact ⟨"fine output", rfl⟩,
   rfl,
   claim_error_propagation failGenB "human brain" "MRI" "" "" 100 ["A"] "B" [] "boom"
     (fun x hx => by
        rw [List.mem_singleton] at hx
        subst hx
        exact ⟨"fine output", rfl⟩)
     rfl⟩

/-- C6: the commentary is a pure total three-bucket function of the
final score, with thresholds 150 and 200; every integer score falls in
exactly one bucket. -/
theorem claim_score_buckets (f : Nat) :
    (f < 150 →
      scoreComment f = "The generated prompt could be improved by making it more specific and detailed.") ∧
    (150 ≤ f ∧ f < 200 →
      scoreComment f = "The prompt is fairly descriptive, but it could benefit from additional details.") ∧
    (200 ≤ f →
      scoreComment f = "The prompt is well-structured and highly descriptive.") ∧
    ((f < 150 ∧ ¬(150 ≤ f ∧ f < 200) ∧ ¬200 ≤ f) ∨
     (¬f < 150 ∧ (150 ≤ f ∧ f < 200) ∧ ¬200 ≤ f) ∨
     (¬f < 150 ∧ ¬(150 ≤ f ∧ f < 200) ∧ 200 ≤ f)) := by
  unfold scoreComment
  refine ⟨?_, ?_, ?_, by omega⟩
  · intro h; rw [if_pos h]
  · intro h; rw [if_neg (by omega), if_pos h]
  · intro h; rw [if_neg (by omega), if_neg (by omega)]

/-- C6 witness: one representative score per bucket (100, 175, 250). -/
theorem claim_score_buckets_witness :
    (100 < 150 ∧
      scoreComment 100 = "The generated prompt could be improved by making it more specific and detailed.") ∧
    ((150 ≤ 175 ∧ 175 < 200) ∧
      scoreComment 175 = "The prompt is fairly descriptive, but it could benefit from additional details.") ∧
    ((200 : Nat) ≤ 250 ∧
      scoreComment 250 = "The prompt is well-structured and highly descriptive.") :=
  ⟨⟨by decide, (claim_score_buckets 100).1 (by decide)⟩,
   ⟨⟨by decide, by decide⟩, (claim_score_buckets 175).2.1 (by decide)⟩,
   ⟨by decide, (claim_score_buckets 250).2.2.1 (by decide)⟩⟩

/-- C7 counterexample: the instruction is not built once per comparison:
over the two registered models the template is constructed twice, once
inside each per-model generation call. -/
theorem claim_build_once_counterexample :
    runModels wGen "human brain" "MRI" "" "" 100 modelNames =
      Except.ok (regRuns, 2) ∧
    (2 : Nat) ≠ 1 :=
  ⟨rfl, by decide⟩

/-- C7 amended: the template is deterministic and is rebuilt once per
model (the build count equals the number of models), and every model
receives the byte-identical instruction text, namely the template of the
request fields. -/
theorem claim_instruction_identical (gen : Backend)
    (d m c dt : String) (ml : Nat) (names : List String)
    (runs : List ModelRun) (k : Nat)
    (h : runModels gen d m c dt ml names = Except.ok (runs, k)) :
    k = names.length ∧
    (∀ r ∈ runs, r.instruction = base_prompt d m c dt) ∧
    ∀ r ∈ runs, ∀ r2 ∈ runs, r.instruction = r2.instruction := by
  obtain ⟨_, hk, hprops⟩ := runModels_ok gen d m c dt ml names runs k h
  refine ⟨hk, fun r hr => (hprops r hr).1, fun r hr r2 hr2 => ?_⟩
  rw [(hprops r hr).1, (hprops r2 hr2).1]

/-- C7 amended witness: over the actual two-model registry the build
count is 2 and both models receive the identical instruction. -/
theorem claim_instruction_identical_witness :
    runModels wGen "human brain" "MRI" "" "" 100 modelNames =
      Except.ok (regRuns, 2) ∧
    ((2 : Nat) = modelNames.length ∧
     (∀ r ∈ regRuns, r.instruction = base_prompt "human brain" "MRI" "" "") ∧
     ∀ r ∈ regRuns, ∀ r2 ∈ regRuns, r.instruction = r2.instruction) :=
  ⟨rfl,
   claim_instruction_identical wGen "human brain" "MRI" "" "" 100 modelNames
     regRuns 2 rfl⟩

/-- C8: the padding-token initialization adopts the end-of-sequence
token whenever the padding token is absent, so if every registered
tokenizer has an end-of-sequence token then after initialization no
tokenizer has a missing padding token. -/
theorem claim_pad_token_init (ts : List Tokenizer)
    (heos : ∀ t ∈ ts, t.eos_token ≠ none) :
    (∀ t ∈ ts, t.pad_token = none → (ensurePadToken t).pad_token = t.eos_token) ∧
    ∀ t2 ∈ initTokenizers ts, t2.pad_token ≠ none := by
  constructor
  · intro t _ hpad
    unfold ensurePadToken
    rw [if_pos hpad]
  · intro t2 ht2
    unfold initTokenizers at ht2
    obtain ⟨t, ht, hteq⟩ := List.mem_map.mp ht2
    subst hteq
    unfold ensurePadToken
    by_cases hpad : t.pad_token = none
    · rw [if_pos hpad]
      exact heos t ht
    · rw [if_neg hpad]
      exact hpad

/-- C8 witness: after initializing the witness tokenizers, the pad-less
one has adopted its eos token and none is missing a padding token. -/
theorem claim_pad_token_init_witness :
    (∀ t ∈ wToks, t.eos_token ≠ none) ∧
    ((∀ t ∈ wToks, t.pad_token = none → (ensurePadToken t).pad_token = t.eos_token) ∧
     ∀ t2 ∈ initTokenizers wToks, t2.pad_token ≠ none) :=
  ⟨by decide, claim_pad_token_init wToks (by decide)⟩

/-- C9: for every string, clarity score is at most length score (each
clear token is a token), hence the final score lies between the length
score and twice the length score. -/
theorem claim_score_bounds (text : String) :
    (evaluate_prompt text).2.1 ≤ (evaluate_prompt text).1 ∧
    (evaluate_prompt text).1 ≤ (evaluate_prompt text).2.2 ∧
    (evaluate_prompt text).2.2 ≤ 2 * (evaluate_prompt text).1 := by
  have hcl : (evaluate_prompt text).2.1 ≤ (evaluate_prompt text).1 :=
    List.length_filter_le _ _
  have hsum : (evaluate_prompt text).2.2 =
      (evaluate_prompt text).1 + (evaluate_prompt text).2.1 := rfl
  omega

/-- C10: the registry holds exactly the two models DistilGPT-2 then
GPT-Neo-125M in that order, and whenever a comparison over the registry
ends in a tie on final score, the earlier-registered DistilGPT-2 is
selected as best model. -/
theorem claim_registry_tie_break :
    models.length = 2 ∧
    modelNames = ["DistilGPT-2", "GPT-Neo-125M"] ∧
    ∀ (gen : Backend) (d m c dt : String) (ml : Nat)
      (runs : List ModelRun) (scores : List (String × Nat)) (best : String),
      compare gen modelNames d m c dt ml = Except.ok (runs, scores, best) →
      (∀ p ∈ scores, ∀ q ∈ scores, p.2 = q.2) →
      best = "DistilGPT-2" := by
  refine ⟨rfl, rfl, ?_⟩
  intro gen d m c dt ml runs scores best h htie
  obtain ⟨k, hrm, hs, bs, hpm⟩ := compare_ok gen modelNames d m c dt ml runs scores best h
  obtain ⟨hnames, _, _⟩ := runModels_ok gen d m c dt ml modelNames runs k hrm
  have hlen : runs.length = 2 := by
    rw [← List.length_map runs ModelRun.name, hnames]
    rfl
  match runs, hlen, hnames, hs, hpm with
  | [r1, r2], _, hnames, hs, hpm =>
    have hn1 : r1.name = "DistilGPT-2" := by
      have := congrArg (fun l => l.headI) hnames
      simpa using this
    have hms : model_scores [r1, r2] =
        [(r1.name, (evaluate_prompt r1.output).2.2),
         (r2.name, (evaluate_prompt r2.output).2.2)] := rfl
    have hmem1 : (r1.name, (evaluate_prompt r1.output).2.2) ∈ scores := by
      rw [hs, hms]
      exact List.mem_cons_self _ _
    have hmem2 : (r2.name, (evaluate_prompt r2.output).2.2) ∈ scores := by
      rw [hs, hms]
      exact List.mem_cons_of_mem _ (List.mem_cons_self _ _)
    have htie2 : (evaluate_prompt r2.output).2.2 = (evaluate_prompt r1.output).2.2 :=
      htie _ hmem2 _ hmem1
    have hcomp : pyMax (model_scores [r1, r2]) =
        some (r1.name, (evaluate_prompt r1.output).2.2) := by
      rw [hms]
      show some (pyMaxAux (r1.name, (evaluate_prompt r1.output).2.2)
        [(r2.name, (evaluate_prompt r2.output).2.2)]) = _
      unfold pyMaxAux
      rw [htie2]
      simp [pyMaxAux]
    rw [hcomp] at hpm
    have hbest : (best, bs) = (r1.name, (evaluate_prompt r1.output).2.2) :=
      (Option.some.inj hpm).symm
    have : best = r1.name := congrArg Prod.fst hbest
    rw [this, hn1]

/-- C10 witness: with both models tying at final score 4, the comparison
over the registry selects DistilGPT-2. -/
theorem claim_registry_tie_break_witness :
    compare wGen modelNames "human brain" "MRI" "" "" 100 =
      Except.ok (regRuns, regScores, "DistilGPT-2") ∧
    (∀ p ∈ regScores, ∀ q ∈ regScores, p.2 = q.2) ∧
    ("DistilGPT-2" : String) = "DistilGPT-2" :=
  ⟨rfl, by decide,
   claim_registry_tie_break.2.2 wGen "human brain" "MRI" "" "" 100
     regRuns regScores "DistilGPT-2" rfl (by decide)⟩

end PromptGen
